import Mathlib

/-!
Shallow embedding of `src/oop_p2.py`: the `CardSuit` and `CardRank`
enumerations, the `Card` value object (display name, equality, ordering,
hash) and the `Deck` (construction, draw, add_card, the `cards` accessor
guarded by the `fair_deck` decorator, indexed access, iteration).
-/

namespace OopP2

/-- `class CardSuit(Enum)`: members in definition order, values 1..4. -/
inductive CardSuit where
  | CLUBS
  | DIAMONDS
  | HEARTS
  | SPADES
deriving DecidableEq, Repr, Fintype

/-- The `.value` of each `CardSuit` member. -/
def CardSuit.value : CardSuit → Nat
  | .CLUBS => 1
  | .DIAMONDS => 2
  | .HEARTS => 3
  | .SPADES => 4

/-- The `.name` of each `CardSuit` member (the Python identifier). -/
def CardSuit.pyName : CardSuit → String
  | .CLUBS => "CLUBS"
  | .DIAMONDS => "DIAMONDS"
  | .HEARTS => "HEARTS"
  | .SPADES => "SPADES"

/-- Iteration order of the `CardSuit` enum (definition order). -/
def CardSuit.all : List CardSuit := [.CLUBS, .DIAMONDS, .HEARTS, .SPADES]

/-- `class CardRank(Enum)`: members in definition order, values 2..14. -/
inductive CardRank where
  | TWO
  | THREE
  | FOUR
  | FIVE
  | SIX
  | SEVEN
  | EIGHT
  | NINE
  | TEN
  | JACK
  | QUEEN
  | KING
  | ACE
deriving DecidableEq, Repr, Fintype

/-- The `.value` of each `CardRank` member. -/
def CardRank.value : CardRank → Nat
  | .TWO => 2
  | .THREE => 3
  | .FOUR => 4
  | .FIVE => 5
  | .SIX => 6
  | .SEVEN => 7
  | .EIGHT => 8
  | .NINE => 9
  | .TEN => 10
  | .JACK => 11
  | .QUEEN => 12
  | .KING => 13
  | .ACE => 14

/-- The `.name` of each `CardRank` member (the Python identifier). -/
def CardRank.pyName : CardRank → String
  | .TWO => "TWO"
  | .THREE => "THREE"
  | .FOUR => "FOUR"
  | .FIVE => "FIVE"
  | .SIX => "SIX"
  | .SEVEN => "SEVEN"
  | .EIGHT => "EIGHT"
  | .NINE => "NINE"
  | .TEN => "TEN"
  | .JACK => "JACK"
  | .QUEEN => "QUEEN"
  | .KING => "KING"
  | .ACE => "ACE"

/-- Iteration order of the `CardRank` enum (definition order). -/
def CardRank.all : List CardRank :=
  [.TWO, .THREE, .FOUR, .FIVE, .SIX, .SEVEN, .EIGHT, .NINE, .TEN,
   .JACK, .QUEEN, .KING, .ACE]

/-- `class Card(ICard)`: holds `_suit` and `_rank`, set in `__init__`. -/
structure Card where
  suit : CardSuit
  rank : CardRank
deriving DecidableEq, Repr, Fintype

/-- Python `str.title()` restricted to the ASCII strings it is applied to
here: a letter that follows a letter is lowercased, any other letter is
uppercased, non-letters pass through. -/
def pyTitle (s : String) : String :=
  (s.toList.foldl
    (fun acc c =>
      let prevAlpha := acc.1
      let out := acc.2
      if c.isAlpha then
        (true, out ++ [if prevAlpha then c.toLower else c.toUpper])
      else
        (false, out ++ [c]))
    (false, [])).2.asString

/-- `Card.get_display_name`: the f-string
`"{self._rank.name.title()} of {self._suit.name.title()}"`. -/
def Card.get_display_name (c : Card) : String :=
  pyTitle c.rank.pyName ++ " of " ++ pyTitle c.suit.pyName

/-- `Card.__eq__`: `isinstance(other, Card) and self._rank == other._rank
and self._suit == other._suit`. Both arguments are cards here, so the
isinstance test holds. -/
def Card.pyEq (a b : Card) : Bool :=
  a.rank == b.rank && a.suit == b.suit

/-- `Card.__lt__` on two cards: Python tuple comparison
`(self._rank.value, self._suit.value) < (other._rank.value, other._suit.value)`:
first components compared first, second components break ties. -/
def Card.pyLt (a b : Card) : Bool :=
  decide (a.rank.value < b.rank.value) ||
    (a.rank.value == b.rank.value && decide (a.suit.value < b.suit.value))

/-- `Card.__hash__` is `hash((self._rank, self._suit))`. CPython's tuple
hash is a fixed function of the component values; we model it by an
injective pairing of the two members' ordinals, faithful in that the
result depends only on `(rank, suit)`. -/
def Card.pyHash (c : Card) : Nat :=
  c.rank.value * 16 + c.suit.value

/-- `class DeckCheatingError(Exception)` carrying its message. -/
structure DeckCheatingError where
  message : String
deriving DecidableEq, Repr

/-- The Python value a `fair_deck`-wrapped method returns: either a list
of cards (the `cards` accessor) or `None` (`add_card`). -/
inductive PyResult where
  | noneV
  | list (l : List Card)
deriving DecidableEq, Repr

/-- The `fair_deck` decorator's wrapper, applied to the wrapped
function's result: `if isinstance(result, list) and
len(result) != len(set(result)): raise DeckCheatingError(...)`, else the
result is returned. `len(set(result))` counts distinct cards, which the
deduplicated list's length models. -/
def fair_deck (result : PyResult) : Except DeckCheatingError PyResult :=
  match result with
  | .list l =>
      if l.length ≠ l.dedup.length then
        .error ⟨"Duplicate cards detected!"⟩
      else
        .ok result
  | .noneV => .ok result

/-- `class Deck(IDeck)`: `_cards` (front = index 0) and the iteration
cursor `_index` set by `__iter__` and advanced by `__next__`. -/
structure Deck where
  cards : List Card
  index : Nat
deriving DecidableEq, Repr

/-- The list comprehension in `Deck.__init__`:
`[Card(s, r) for s in CardSuit for r in CardRank]`. -/
def standardCards : List Card :=
  CardSuit.all.flatMap (fun s => CardRank.all.map (fun r => ⟨s, r⟩))

/-- `Deck.__init__` with `shuffle=False`: `_cards` is the comprehension
above, `_index = 0`, and the `random.shuffle` branch is skipped. (The
`shuffle=True` branch applies a random permutation and is not modelled;
every claim concerns `shuffle=False`.) Construction is total: it never
fails. -/
def Deck.new : Deck := ⟨standardCards, 0⟩

/-- `Deck.draw`: `self._cards.pop(0)` when nonempty, else `None`.
Returns the drawn card (or `none`) together with the deck afterwards. -/
def Deck.draw (d : Deck) : Option Card × Deck :=
  match d.cards with
  | [] => (none, d)
  | c :: rest => (some c, { d with cards := rest })

/-- `Deck.add_card`, `@fair_deck`: the body `self._cards.append(card)`
mutates first and returns `None`; the wrapper then inspects that `None`
return value. -/
def Deck.add_card (d : Deck) (c : Card) : Except DeckCheatingError Deck :=
  let d' : Deck := { d with cards := d.cards ++ [c] }
  match fair_deck .noneV with
  | .error e => .error e
  | .ok _ => .ok d'

/-- The `cards` property, `@fair_deck`: the body returns
`self._cards.copy()` (a fresh list equal to the contents); the wrapper
checks that list for duplicates before handing it back. The deck itself
is not modified by the read. -/
def Deck.cardsAccessor (d : Deck) : Except DeckCheatingError (List Card) :=
  match fair_deck (.list d.cards) with
  | .error e => .error e
  | .ok (.list l) => .ok l
  | .ok .noneV => .ok []

/-- `Deck.__len__`: `len(self._cards)`. -/
def Deck.length (d : Deck) : Nat := d.cards.length

/-- `Deck.__getitem__`: `self._cards[index]` with Python list indexing: a
negative index is offset by the length, and an index out of
`[-len, len)` raises `IndexError`, modelled by `none`. -/
def Deck.getitem (d : Deck) (i : Int) : Option Card :=
  let j : Int := if i < 0 then i + (d.cards.length : Int) else i
  if 0 ≤ j then d.cards.get? j.toNat else none

/-- `Deck.__iter__`: resets `self._index = 0` and returns the deck
itself as the iterator. -/
def Deck.iterInit (d : Deck) : Deck := { d with index := 0 }

/-- `Deck.__next__`: yields `self._cards[self._index]` and advances the
cursor, or signals `StopIteration` (modelled by `none`) once the cursor
reaches the end. -/
def Deck.next (d : Deck) : Option Card × Deck :=
  if h : d.index < d.cards.length then
    (some (d.cards.get ⟨d.index, h⟩), { d with index := d.index + 1 })
  else
    (none, d)

/-- Runs `__next__` up to `fuel` times, collecting the yielded cards in
order and returning the deck afterwards: a `for` loop body that only
observes the elements. -/
def iterRun : Nat → Deck → List Card × Deck
  | 0, d => ([], d)
  | fuel + 1, d =>
      match d.next with
      | (none, d') => ([], d')
      | (some c, d') =>
          let p := iterRun fuel d'
          (c :: p.1, p.2)

/-- A complete `for c in deck` loop over an undisturbed deck:
`__iter__` then `__next__` until `StopIteration`. The fuel
`d.cards.length + 1` always suffices to reach exhaustion. -/
def Deck.iterate (d : Deck) : List Card × Deck :=
  iterRun (d.cards.length + 1) d.iterInit

/-- Runs `draw` `n` times, collecting the cards actually returned (in
draw order) and the deck afterwards; a draw that returns `None`
contributes nothing. -/
def drawN : Nat → Deck → List Card × Deck
  | 0, d => ([], d)
  | n + 1, d =>
      match d.draw with
      | (none, d') => ([], d')
      | (some c, d') =>
          let p := drawN n d'
          (c :: p.1, p.2)

/-- Suits indexed 0..3 in enumeration order: the suit-major position of
the canonical order. -/
def suitAt : Nat → CardSuit
  | 0 => .CLUBS
  | 1 => .DIAMONDS
  | 2 => .HEARTS
  | _ => .SPADES

/-- Ranks indexed 0..12 in enumeration order: the rank-minor position of
the canonical order. -/
def rankAt : Nat → CardRank
  | 0 => .TWO
  | 1 => .THREE
  | 2 => .FOUR
  | 3 => .FIVE
  | 4 => .SIX
  | 5 => .SEVEN
  | 6 => .EIGHT
  | 7 => .NINE
  | 8 => .TEN
  | 9 => .JACK
  | 10 => .QUEEN
  | 11 => .KING
  | _ => .ACE

/-- The title-cased rank names the spec's display-name clause expects,
written out independently of `pyTitle`. -/
def rankTitleName : CardRank → String
  | .TWO => "Two"
  | .THREE => "Three"
  | .FOUR => "Four"
  | .FIVE => "Five"
  | .SIX => "Six"
  | .SEVEN => "Seven"
  | .EIGHT => "Eight"
  | .NINE => "Nine"
  | .TEN => "Ten"
  | .JACK => "Jack"
  | .QUEEN => "Queen"
  | .KING => "King"
  | .ACE => "Ace"

/-- The title-cased suit names the spec's display-name clause expects. -/
def suitTitleName : CardSuit → String
  | .CLUBS => "Clubs"
  | .DIAMONDS => "Diamonds"
  | .HEARTS => "Hearts"
  | .SPADES => "Spades"

/-! ## Helper lemmas -/

/-- `CardRank.value` is injective (checked over all 169 pairs). -/
lemma rank_value_inj : ∀ r₁ r₂ : CardRank, r₁.value = r₂.value → r₁ = r₂ := by
  decide

/-- `CardSuit.value` is injective (checked over all 16 pairs). -/
lemma suit_value_inj : ∀ s₁ s₂ : CardSuit, s₁.value = s₂.value → s₁ = s₂ := by
  decide

/-- A card is determined by its members' ordinals. -/
lemma Card.eq_of_values {a b : Card} (hr : a.rank.value = b.rank.value)
    (hs : a.suit.value = b.suit.value) : a = b := by
  cases a with
  | mk s₁ r₁ =>
    cases b with
    | mk s₂ r₂ =>
      have hr' := rank_value_inj _ _ hr
      have hs' := suit_value_inj _ _ hs
      simp only at hr' hs'
      rw [hr', hs']

/-- `Card.pyLt` unfolded to the Python tuple-comparison disjunction. -/
lemma Card.pyLt_iff (a b : Card) :
    a.pyLt b = true ↔
      (a.rank.value < b.rank.value ∨
        (a.rank.value = b.rank.value ∧ a.suit.value < b.suit.value)) := by
  simp [Card.pyLt]

/-- `Card.pyEq` agrees with structural equality of cards. -/
lemma Card.pyEq_iff (a b : Card) : a.pyEq b = true ↔ a = b := by
  cases a with
  | mk s₁ r₁ =>
    cases b with
    | mk s₂ r₂ =>
      simp [Card.pyEq, and_comm, Card.mk.injEq]

/-- `len(result) == len(set(result))` (no shrink under deduplication) is
exactly the no-duplicates condition. -/
lemma length_eq_dedup_length_iff (l : List Card) :
    l.length = l.dedup.length ↔ l.Nodup := by
  constructor
  · intro h
    have hsub := List.dedup_sublist l
    have heq : l.dedup = l := hsub.eq_of_length h.symm
    rw [← heq]
    exact List.nodup_dedup l
  · intro h
    rw [h.dedup]

/-- Running the iterator from cursor `i ≤ length` with enough fuel
yields the suffix from `i` and leaves the cards untouched, the cursor at
the end. -/
lemma iterRun_spec : ∀ (fuel : Nat) (cards : List Card) (i : Nat),
    i ≤ cards.length → cards.length - i < fuel →
    iterRun fuel ⟨cards, i⟩ = (cards.drop i, ⟨cards, cards.length⟩) := by
  intro fuel
  induction fuel with
  | zero => intro cards i _ hfuel; omega
  | succ fuel ih =>
    intro cards i hi hfuel
    by_cases h : i < cards.length
    · have hnext : (Deck.mk cards i).next =
          (some (cards.get ⟨i, h⟩), ⟨cards, i + 1⟩) := by
        simp [Deck.next, h]
      have hrec := ih cards (i + 1) (by omega) (by omega)
      simp only [iterRun, hnext, hrec]
      rw [List.drop_eq_getElem_cons h]
      simp [List.get_eq_getElem]
    · have hie : i = cards.length := by omega
      have hnext : (Deck.mk cards i).next = (none, ⟨cards, i⟩) := by
        simp [Deck.next, h]
      simp only [iterRun, hnext]
      rw [hie]
      simp

/-! ## Claim theorems -/

/-- C1: contrary to the claim, `add_card` never raises
`DeckCheatingError`: the `fair_deck` wrapper only inspects results that
are lists, and `add_card`'s body returns `None`, so the duplicate check
is dead code there. Every `add_card` call appends and returns normally;
at the failing input — a fresh unshuffled deck plus a second Two of
Clubs — the deck ends with a duplicate and no error is raised. -/
theorem add_card_never_raises :
    (∀ (d : Deck) (c : Card),
      d.add_card c = Except.ok ⟨d.cards ++ [c], d.index⟩)
    ∧ Deck.new.add_card ⟨.CLUBS, .TWO⟩ =
        Except.ok ⟨standardCards ++ [⟨.CLUBS, .TWO⟩], 0⟩
    ∧ ¬ (standardCards ++ [(⟨.CLUBS, .TWO⟩ : Card)]).Nodup :=
  ⟨fun _ _ => rfl, rfl, by decide⟩

/-- C2: the `cards` accessor raises `DeckCheatingError` exactly when the
deck's current contents hold two equal cards, and otherwise returns the
current front-to-back sequence; the deck itself is not modified by the
read (the accessor hands back a copy, modelled here by the returned
value being independent of the deck's own state). -/
theorem cards_accessor_spec :
    ∀ d : Deck,
      d.cardsAccessor =
        (if d.cards.Nodup then Except.ok d.cards
         else Except.error ⟨"Duplicate cards detected!"⟩) := by
  intro d
  by_cases h : d.cards.Nodup
  · have hlen : d.cards.length = d.cards.dedup.length :=
      (length_eq_dedup_length_iff _).mpr h
    simp [Deck.cardsAccessor, fair_deck, hlen, h]
  · have hlen : d.cards.length ≠ d.cards.dedup.length :=
      fun he => h ((length_eq_dedup_length_iff _).mp he)
    simp [Deck.cardsAccessor, fair_deck, hlen, h]

/-- C3: from a fresh unshuffled deck, 52 draws return exactly the deck's
cards at construction, in order; they are 52 pairwise-distinct cards
covering every (suit, rank) pair; the deck is then empty, the 53rd draw
returns `none`, and a draw on any empty deck returns `none` without
error. -/
theorem draw_all_spec :
    (drawN 52 Deck.new).1 = Deck.new.cards
    ∧ (drawN 52 Deck.new).1.Nodup
    ∧ (drawN 52 Deck.new).1.length = 52
    ∧ (∀ s r, (⟨s, r⟩ : Card) ∈ (drawN 52 Deck.new).1)
    ∧ (drawN 52 Deck.new).2.cards = []
    ∧ (drawN 52 Deck.new).2.draw = (none, (drawN 52 Deck.new).2)
    ∧ (∀ d : Deck, d.cards = [] → d.draw = (none, d)) := by
  refine ⟨by decide, by decide, by decide, by decide, by decide, by decide, ?_⟩
  intro d h
  simp [Deck.draw, h]

/-- Witness for C3: drawing from a concrete empty deck returns `none`
and leaves the deck empty. -/
theorem draw_all_spec_witness :
    (Deck.mk [] 0).draw = (none, Deck.mk [] 0) :=
  draw_all_spec.2.2.2.2.2.2 ⟨[], 0⟩ rfl

/-- C4: an unshuffled deck holds exactly 52 pairwise-distinct cards, one
per (suit, rank) pair, in canonical suit-major (enum order Clubs,
Diamonds, Hearts, Spades), rank-minor (Two through Ace) order: position
`i` holds the card of suit `i / 13` and rank `i % 13`. Construction is a
total function, so it never fails. -/
theorem new_deck_canonical :
    Deck.new.length = 52
    ∧ Deck.new.cards.Nodup
    ∧ (∀ s r, (⟨s, r⟩ : Card) ∈ Deck.new.cards)
    ∧ Deck.new.cards =
        (List.range 52).map (fun i => ⟨suitAt (i / 13), rankAt (i % 13)⟩) :=
  ⟨by decide, by decide, by decide, by decide⟩

/-- C5: `__lt__` is a strict total order on cards — irreflexive,
transitive, and any two distinct cards are comparable — and it agrees
with lexicographic order on (rank ordinal, suit ordinal), so rank
dominates suit: Two of Hearts sorts below Three of Clubs. -/
theorem card_lt_strict_total_order :
    (∀ a : Card, a.pyLt a = false)
    ∧ (∀ a b c : Card, a.pyLt b = true → b.pyLt c = true → a.pyLt c = true)
    ∧ (∀ a b : Card, a.pyLt b = true ∨ a = b ∨ b.pyLt a = true)
    ∧ (∀ a b : Card, a.pyLt b = true ↔
        Prod.Lex (· < ·) (· < ·) (a.rank.value, a.suit.value)
          (b.rank.value, b.suit.value))
    ∧ (Card.mk .HEARTS .TWO).pyLt ⟨.CLUBS, .THREE⟩ = true := by
  refine ⟨?_, ?_, ?_, ?_, by decide⟩
  · intro a
    rw [← Bool.not_eq_true, Card.pyLt_iff]
    omega
  · intro a b c hab hbc
    rw [Card.pyLt_iff] at hab hbc ⊢
    omega
  · intro a b
    rcases lt_trichotomy a.rank.value b.rank.value with h | h | h
    · exact Or.inl ((Card.pyLt_iff a b).mpr (Or.inl h))
    · rcases lt_trichotomy a.suit.value b.suit.value with h2 | h2 | h2
      · exact Or.inl ((Card.pyLt_iff a b).mpr (Or.inr ⟨h, h2⟩))
      · exact Or.inr (Or.inl (Card.eq_of_values h h2))
      · exact Or.inr (Or.inr ((Card.pyLt_iff b a).mpr (Or.inr ⟨h.symm, h2⟩)))
    · exact Or.inr (Or.inr ((Card.pyLt_iff b a).mpr (Or.inl h)))
  · intro a b
    rw [Card.pyLt_iff, Prod.lex_def]

/-- Witness for C5: transitivity applied at three concrete cards. -/
theorem card_lt_strict_total_order_witness :
    (Card.mk .CLUBS .TWO).pyLt ⟨.CLUBS, .FOUR⟩ = true :=
  card_lt_strict_total_order.2.1 ⟨.CLUBS, .TWO⟩ ⟨.CLUBS, .THREE⟩
    ⟨.CLUBS, .FOUR⟩ (by decide) (by decide)

/-- C6: `__eq__` is an equivalence relation on cards, holds exactly when
suit and rank both match, and `__hash__` is consistent with it: equal
cards hash identically. -/
theorem card_eq_equivalence_hash :
    (∀ a : Card, a.pyEq a = true)
    ∧ (∀ a b : Card, a.pyEq b = true → b.pyEq a = true)
    ∧ (∀ a b c : Card, a.pyEq b = true → b.pyEq c = true → a.pyEq c = true)
    ∧ (∀ a b : Card, a.pyEq b = true ↔ (a.suit = b.suit ∧ a.rank = b.rank))
    ∧ (∀ a b : Card, a.pyEq b = true → a.pyHash = b.pyHash) := by
  refine ⟨?_, ?_, ?_, ?_, ?_⟩
  · intro a
    exact (Card.pyEq_iff a a).mpr rfl
  · intro a b h
    exact (Card.pyEq_iff b a).mpr ((Card.pyEq_iff a b).mp h).symm
  · intro a b c h1 h2
    exact (Card.pyEq_iff a c).mpr
      (((Card.pyEq_iff a b).mp h1).trans ((Card.pyEq_iff b c).mp h2))
  · intro a b
    rw [Card.pyEq_iff]
    constructor
    · rintro rfl
      exact ⟨rfl, rfl⟩
    · rintro ⟨hs, hr⟩
      cases a
      cases b
      simp_all
  · intro a b h
    rw [(Card.pyEq_iff a b).mp h]

/-- Witness for C6: hash consistency applied at a concrete pair of equal
cards. -/
theorem card_eq_equivalence_hash_witness :
    (Card.mk .HEARTS .ACE).pyHash = (Card.mk .HEARTS .ACE).pyHash :=
  card_eq_equivalence_hash.2.2.2.2 ⟨.HEARTS, .ACE⟩ ⟨.HEARTS, .ACE⟩ (by decide)

/-- C7: indexed access at `i < length()` returns the card at position
`i` (the deck is read, not mutated: `getitem` takes the deck by value
and returns only the card); `at(0)` is the card a subsequent `draw`
would return; access at `length()` itself fails (modelled by `none`,
the `IndexError`). -/
theorem getitem_spec :
    ∀ d : Deck,
      (∀ (i : Nat) (h : i < d.length),
        d.getitem (i : Int) = some (d.cards.get ⟨i, h⟩))
      ∧ (0 < d.length → d.getitem 0 = (d.draw).1)
      ∧ d.getitem (d.length : Int) = none := by
  intro d
  refine ⟨?_, ?_, ?_⟩
  · intro i h
    have h1 : ¬ ((i : Int) < 0) := by omega
    have h2 : (0 : Int) ≤ (i : Int) := by omega
    simp only [Deck.getitem, if_neg h1, if_pos h2]
    have h3 : ((i : Int)).toNat = i := by omega
    rw [h3]
    exact List.get?_eq_get h
  · intro hpos
    rcases hc : d.cards with _ | ⟨c, rest⟩
    · exfalso
      rw [Deck.length, hc] at hpos
      simp at hpos
    · simp [Deck.getitem, Deck.draw, hc]
  · have h1 : ¬ ((d.length : Int) < 0) := by omega
    have h2 : (0 : Int) ≤ (d.length : Int) := by omega
    simp only [Deck.getitem, if_neg h1, if_pos h2]
    have h3 : ((d.length : Int)).toNat = d.cards.length := by
      rw [Deck.length]
      omega
    rw [h3]
    exact List.get?_length d.cards

/-- Witness for C7: indexed access on a fresh unshuffled deck at 0, and
the boundary failure on that same deck. -/
theorem getitem_spec_witness :
    Deck.new.getitem ((0 : Nat) : Int) =
        some (Deck.new.cards.get ⟨0, by decide⟩)
    ∧ Deck.new.getitem 0 = (Deck.new.draw).1
    ∧ Deck.new.getitem (Deck.new.length : Int) = none :=
  ⟨(getitem_spec Deck.new).1 0 (by decide),
   (getitem_spec Deck.new).2.1 (by decide),
   (getitem_spec Deck.new).2.2⟩

/-- C8: a full iteration over an undisturbed deck (`__iter__` then
`__next__` to exhaustion) yields exactly the deck's cards, front to
back, `length()` of them, and leaves the deck's contents unchanged. -/
theorem iteration_spec :
    ∀ d : Deck,
      (d.iterate).1 = d.cards
      ∧ (d.iterate).1.length = d.length
      ∧ (d.iterate).2.cards = d.cards := by
  intro d
  have h := iterRun_spec (d.cards.length + 1) d.cards 0 (Nat.zero_le _)
    (by omega)
  have hinit : d.iterInit = ⟨d.cards, 0⟩ := rfl
  simp [Deck.iterate, hinit, h, Deck.length]

/-- C9: every card's display name is the title-cased rank name, then
" of ", then the title-cased suit name; in particular the Ace of Spades
displays as "Ace of Spades". -/
theorem display_name_spec :
    (∀ c : Card, c.get_display_name =
      rankTitleName c.rank ++ " of " ++ suitTitleName c.suit)
    ∧ (Card.mk .SPADES .ACE).get_display_name = "Ace of Spades" := by
  refine ⟨?_, rfl⟩
  intro c
  cases c with
  | mk s r => cases s <;> cases r <;> rfl

/-- C10: a negative index `-k` with `1 ≤ k ≤ length()` does not fail:
Python list indexing offsets it by the length, returning the card at
position `length() - k`, counted from the back. -/
theorem negative_index_spec :
    ∀ (d : Deck) (k : Nat), 1 ≤ k → k ≤ d.length →
      d.getitem (-(k : Int)) = d.cards.get? (d.length - k)
      ∧ (d.getitem (-(k : Int))).isSome = true := by
  intro d k h1 h2
  rw [Deck.length] at h2
  have hget : d.getitem (-(k : Int)) = d.cards.get? (d.cards.length - k) := by
    have hneg : (-(k : Int)) < 0 := by omega
    simp only [Deck.getitem, if_pos hneg]
    rw [if_pos (by omega : (0 : Int) ≤ -(k : Int) + (d.cards.length : Int))]
    have htn : (-(k : Int) + (d.cards.length : Int)).toNat =
        d.cards.length - k := by
      omega
    rw [htn]
  have hlt : d.cards.length - k < d.cards.length := by omega
  refine ⟨hget, ?_⟩
  rw [hget, List.get?_eq_get hlt]
  rfl

/-- Witness for C10: index -1 on a fresh unshuffled deck returns the
last card. -/
theorem negative_index_spec_witness :
    Deck.new.getitem (-((1 : Nat) : Int)) =
        Deck.new.cards.get? (Deck.new.length - 1)
    ∧ (Deck.new.getitem (-((1 : Nat) : Int))).isSome = true :=
  negative_index_spec Deck.new 1 (by decide) (by decide)

end OopP2
